import Mathlib

/-!
# Verification of the coblocks block-physics engine

Shallow embedding of the block placement / support / cascade-removal core of
the repository (primary revision: `src/js/systems/BlockSystem.js`; the
near-duplicate revisions in `src/js/gridGenerator.js` and
`src/js/blockBuilder.js` share the same support logic, with the one
difference — a removal cap of 100 in `blockBuilder.js` — modelled
separately).

Modelling conventions:
* The JS block map `this.blocks : Map "x_y_z" -> blockData` is modelled as a
  `List BlockData`; the map key is the `id` field (a `Cell` triple standing
  for the `"x_y_z"` string, whose encoding of integer triples is injective).
  Key lookup / membership is lookup by `id`.
* JS numbers that carry fractional values (heights, world Y positions) are
  modelled as `ℚ`; the concrete constants `1.0`, `0.5`, `0.22` are exact in
  `ℚ`, and the one arithmetic identity the code relies on
  (`h + (1.0 - h) = 1.0`) is exact in IEEE doubles for these values as well.
* Unbounded JS `while` loops are modelled by structurally recursive
  functions with an explicit fuel argument chosen so that the fuel provably
  never runs out (the corresponding sufficiency lemmas are proved below);
  the recursion in `hasIndirectSupport` is intrinsically bounded by its
  visited-set guard, and the fuel `21 - visited.length` mirrors that guard
  exactly.
* Rendering-only state (meshes, geometry, DOM stats, the transient error
  indicator) and calls out to `window.gridGenerator` are omitted: they do
  not touch the occupancy store.
-/

namespace Coblocks

/-- A discrete cell coordinate `(x, yLevel, z)`; stands for the JS key
string `"x_yLevel_z"`. -/
structure Cell where
  x : Int
  y : Int
  z : Int
deriving DecidableEq, Repr

/-- A block record, as stored in `this.blocks` (`BlockSystem.js` lines
186–193): height, color, cached world position, stacking level and key.
The `mesh` field (rendering only) is omitted. -/
structure BlockData where
  height : ℚ
  color : String
  posX : Int
  posY : ℚ
  posZ : Int
  yLevel : Int
  id : Cell
deriving DecidableEq, Repr

/-- The mutable state of a `BlockSystem` instance: occupancy store, grid
membership data, and the physics toggle (`BlockSystem.js` constructor). -/
structure SysState where
  blocks : List BlockData
  gridData : List (Int × Int)
  enableBlockPhysics : Bool
  selectedColor : String
deriving DecidableEq, Repr

/-- `this.blockSize = 1.0` (one unit = 3 meters). -/
def blockSize : ℚ := 1

/-- `this.landBaseY = 0.5` (land raised above water). -/
def landBaseY : ℚ := 1/2

/-- The reduced "thin base" height `0.22` given to a ground-level block in
an otherwise empty column (`BlockSystem.js` line 156). -/
def thinBaseHeight : ℚ := 22/100

/-- `isGroundLevel(x, z)`: membership of `(x,z)` in the generated grid
(`BlockSystem.js` lines 132–134,
`gridData.some(gp => gp.gridX === x && gp.gridY === z)`). -/
def isGroundLevel (st : SysState) (x z : Int) : Bool :=
  st.gridData.any fun gp => decide (gp.1 = x) && decide (gp.2 = z)

/-- `this.blocks.has("x_y_z")`: key membership in the occupancy store. -/
def hasBlockId (st : SysState) (c : Cell) : Bool :=
  st.blocks.any fun bd => decide (bd.id = c)

/-- `this.blocks.get("x_y_z")`: key lookup in the occupancy store. -/
def getBlockId (st : SysState) (c : Cell) : Option BlockData :=
  st.blocks.find? fun bd => decide (bd.id = c)

/-- `getAdjacentPositions(x, yLevel, z)` (`BlockSystem.js` lines 120–127):
the four horizontal neighbors, in source order East, West, North, South. -/
def adjacentPositions (x yLevel z : Int) : List Cell :=
  [⟨x + 1, yLevel, z⟩, ⟨x - 1, yLevel, z⟩, ⟨x, yLevel, z + 1⟩, ⟨x, yLevel, z - 1⟩]

/-- Membership in the visited set (a JS `Set` of cell keys, modelled as a
list of cells; the code only ever adds keys not already present). -/
def cellMem (c : Cell) (visited : List Cell) : Bool :=
  visited.any fun c' => decide (c' = c)

/-- Recursion core of `hasIndirectSupport` (`BlockSystem.js` lines 83–115).
The fuel argument makes the recursion structural; `hasIndirectSupport`
below instantiates it with `21 - visited.length`, which mirrors the
source's guard `visited.has(blockId) || visited.size > 20` exactly: fuel
`0` corresponds to `visited.size > 20`, and each recursive call both grows
`visited` by one and spends one unit of fuel. -/
def hisGo (st : SysState) : Nat → Int → Int → Int → List Cell → Bool
  | 0, _, _, _, _ => false
  | fuel + 1, x, yLevel, z, visited =>
    let blockId : Cell := ⟨x, yLevel, z⟩
    if cellMem blockId visited then false
    else
      let visited' := blockId :: visited
      if decide (yLevel = 0) && isGroundLevel st x z then true
      else if hasBlockId st ⟨x, yLevel - 1, z⟩ then true
      else (adjacentPositions x yLevel z).any fun pos =>
        hasBlockId st pos && !cellMem pos visited' &&
          hisGo st fuel pos.x pos.y pos.z visited'

/-- `hasIndirectSupport(x, yLevel, z, visited)` (`BlockSystem.js` lines
83–115): recursive support search with cycle prevention via the visited
set, ground rule and direct-below rule as terminal cases, recursion over
the four horizontal neighbors with a cloned visited set per branch. -/
def hasIndirectSupport (st : SysState) (x yLevel z : Int) (visited : List Cell) : Bool :=
  hisGo st (21 - visited.length) x yLevel z visited

/-- `hasSupport(x, yLevel, z)` (`BlockSystem.js` lines 58–78): direct
vertical support from the cell below, else a recursive search from each
occupied horizontal neighbor with the visited set seeded with the
originating cell. Note: no ground-level terminal case here — that case
lives only in `validateBlockPlacement`. -/
def hasSupport (st : SysState) (x yLevel z : Int) : Bool :=
  if hasBlockId st ⟨x, yLevel - 1, z⟩ then true
  else (adjacentPositions x yLevel z).any fun pos =>
    hasBlockId st pos && hasIndirectSupport st pos.x pos.y pos.z [⟨x, yLevel, z⟩]

/-- `validateBlockPlacement(x, yLevel, z)` (`BlockSystem.js` lines 46–53):
grounded ground-level cells are always valid, otherwise defer to
`hasSupport`. -/
def validateBlockPlacement (st : SysState) (x yLevel z : Int) : Bool :=
  if decide (yLevel = 0) && isGroundLevel st x z then true
  else hasSupport st x yLevel z

/-- `findUnsupportedBlocks()` (`BlockSystem.js` lines 376–389): all stored
blocks whose `(position.x, yLevel, position.z)` fails `hasSupport`. -/
def findUnsupportedBlocks (st : SysState) : List BlockData :=
  st.blocks.filter fun bd => !hasSupport st bd.posX bd.yLevel bd.posZ

/-- One removal sweep: `this.blocks.delete(blockData.id)` for every
collected unsupported block. -/
def removeBlocksByIds (blocks : List BlockData) (uns : List BlockData) : List BlockData :=
  blocks.filter fun bd => !(uns.any fun u => decide (u.id = bd.id))

/-- The cascade loop of `removeUnsupportedBlocks` (`BlockSystem.js` lines
397–410): repeatedly collect and delete unsupported blocks until a pass
finds none. The JS `while` loop is unbounded; the fuel `blocks.length + 1`
used by `removeUnsupportedBlocks` is proved sufficient below
(`cascadeGo_reaches_fixpoint`, `cascadeGo_fuel_irrelevant`). -/
def cascadeGo : Nat → SysState → Nat → SysState × Nat
  | 0, st, n => (st, n)
  | fuel + 1, st, n =>
    let uns := findUnsupportedBlocks st
    if uns.isEmpty then (st, n)
    else cascadeGo fuel { st with blocks := removeBlocksByIds st.blocks uns } (n + uns.length)

/-- `removeUnsupportedBlocks()` (`BlockSystem.js` lines 394–418, identical
in `gridGenerator.js` lines 2515–2540): early `return` (yielding
`undefined`, modelled as `none`) when physics is disabled, else run the
cascade to its fixed point and return the removal count. -/
def removeUnsupportedBlocks (st : SysState) : SysState × Option Nat :=
  if !st.enableBlockPhysics then (st, none)
  else
    let r := cascadeGo (st.blocks.length + 1) st 0
    (r.1, some r.2)

/-- The cascade loop of `blockBuilder.js` lines 1121–1146, whose `while`
condition carries the extra safety cap `removedCount < 100`. The `has`
argument is the JS `hasUnsupported` variable (initially `true`, recomputed
from each pass's find). Fuel `blocks.length + 2` is an upper bound on loop
iterations: every entered iteration either shrinks the store or sets
`hasUnsupported` to `false`, which ends the loop one check later. -/
def cascadeCappedGo : Nat → SysState → Nat → Bool → SysState × Nat
  | 0, st, n, _ => (st, n)
  | fuel + 1, st, n, hasUnsupported =>
    if hasUnsupported && decide (n < 100) then
      let uns := findUnsupportedBlocks st
      cascadeCappedGo fuel { st with blocks := removeBlocksByIds st.blocks uns }
        (n + uns.length) (!uns.isEmpty)
    else (st, n)

/-- `removeUnsupportedBlocks()` of `blockBuilder.js` (lines 1121–1146):
same as the uncapped version but with the `removedCount < 100` cap in the
loop condition. -/
def removeUnsupportedBlocksCapped (st : SysState) : SysState × Option Nat :=
  if !st.enableBlockPhysics then (st, none)
  else
    let r := cascadeCappedGo (st.blocks.length + 2) st 0 true
    (r.1, some r.2)

/-- `_calculateYPosition(x, z, yLevel, blockHeight)` (`BlockSystem.js`
lines 577–590): land base plus the sum over levels `0 .. yLevel-1` of the
stored height of the block at that level (falling back to `blockSize` for
gaps), plus half the new block's height. -/
def calculateYPosition (blocks : List BlockData) (x z : Int) (yLevel : Int)
    (blockHeight : ℚ) : ℚ :=
  (List.range yLevel.toNat).foldl
    (fun acc level =>
      match blocks.find? (fun bd => decide (bd.id = (⟨x, (level : Int), z⟩ : Cell))) with
      | some belowBlock => acc + belowBlock.height
      | none => acc + blockSize)
    landBaseY
  + blockHeight / 2

/-- `createBlockAt(x, z, yLevel, options)` (`BlockSystem.js` lines
139–208). Returns the new state and the JS boolean result. Rejected
placements (`!options.skipValidation && enableBlockPhysics &&
!validateBlockPlacement`) return `false` with the state untouched.
Otherwise: thin-base height for a ground block in an empty column;
inflation of a thin base when placing at level 1 (`base.height += needed`,
mutating the stored record in place — the base record's cached `position.y`
is not updated, only its mesh, which is outside this model); then the new
record is stored under its key. -/
def createBlockAt (st : SysState) (x z yLevel : Int) (skipValidation : Bool) :
    SysState × Bool :=
  if !skipValidation && st.enableBlockPhysics && !validateBlockPlacement st x yLevel z then
    (st, false)
  else
    let isEmptyColumn := !(st.blocks.any fun bd => decide (bd.posX = x) && decide (bd.posZ = z))
    let inflated : List BlockData × ℚ :=
      if decide (yLevel = 0) && isEmptyColumn then (st.blocks, thinBaseHeight)
      else if decide (yLevel = 1) then
        match st.blocks.find? (fun bd => decide (bd.id = (⟨x, 0, z⟩ : Cell))) with
        | some base =>
          if base.height < blockSize then
            (st.blocks.map fun bd =>
              if bd.id = (⟨x, 0, z⟩ : Cell) then
                { bd with height := bd.height + (blockSize - bd.height) }
              else bd,
             blockSize)
          else (st.blocks, blockSize)
        | none => (st.blocks, blockSize)
      else (st.blocks, blockSize)
    let yPosition := calculateYPosition inflated.1 x z yLevel inflated.2
    let bd : BlockData :=
      { height := inflated.2, color := st.selectedColor, posX := x, posY := yPosition,
        posZ := z, yLevel := yLevel, id := ⟨x, yLevel, z⟩ }
    ({ st with blocks := bd :: inflated.1.filter fun b => !decide (b.id = (⟨x, yLevel, z⟩ : Cell)) },
     true)

/-- Upward column scan core of `placeAboveBlock` (`BlockSystem.js` lines
464–467: `while (this.blocks.has(...)) target++`). Structural fuel; the
instantiation in `scanUp` is proved sufficient below. -/
def scanUpGo (st : SysState) (x z : Int) : Nat → Int → Int
  | 0, target => target
  | fuel + 1, target =>
    if hasBlockId st ⟨x, target, z⟩ then scanUpGo st x z fuel (target + 1) else target

/-- First unoccupied level scanning upward from `start` in column `(x,z)`.
Fuel: one more than the number of stored blocks in the column, an upper
bound on how many occupied levels the scan can cross. -/
def scanUp (st : SysState) (x z : Int) (start : Int) : Int :=
  scanUpGo st x z
    ((st.blocks.filter fun bd => decide (bd.id.x = x) && decide (bd.id.z = z)).length + 1)
    start

/-- `placeAboveBlock(existingBlockData, options)` (`BlockSystem.js` lines
461–469): scan upward from the reference's `yLevel + 1` for the first free
level in the same column, then `createBlockAt` there. -/
def placeAboveBlock (st : SysState) (ref : BlockData) (skipValidation : Bool) :
    SysState × Bool :=
  createBlockAt st ref.posX ref.posZ (scanUp st ref.posX ref.posZ (ref.yLevel + 1))
    skipValidation

/-- Downward column scan of `placeBelowBlock` (`BlockSystem.js` lines
477–482: `while (target >= 0) { if (!has) break; target-- }`), returning
`none` when the scan runs below zero. Fuel `(target + 1).toNat` equals the
number of remaining loop iterations and is therefore exact. -/
def scanDownGo (st : SysState) (x z : Int) : Nat → Int → Option Int
  | 0, _ => none
  | fuel + 1, target =>
    if target < 0 then none
    else if hasBlockId st ⟨x, target, z⟩ then scanDownGo st x z fuel (target - 1)
    else some target

/-- First free level scanning downward from `start`, `none` if the scan
falls below ground. -/
def scanDown (st : SysState) (x z : Int) (start : Int) : Option Int :=
  scanDownGo st x z (start + 1).toNat start

/-- `placeBelowBlock(existingBlockData, options)` (`BlockSystem.js` lines
474–485): scan downward from the reference's `yLevel - 1` while cells are
occupied; if the scan falls below zero, return with no mutation, else
place at the found level. -/
def placeBelowBlock (st : SysState) (ref : BlockData) (skipValidation : Bool) : SysState :=
  match scanDown st ref.posX ref.posZ (ref.yLevel - 1) with
  | none => st
  | some target => (createBlockAt st ref.posX ref.posZ target skipValidation).1

/-- `stackVertically(blockData)` (`BlockSystem.js` lines 680–718): find
the highest occupied level in the reference's column (seeded with the
reference's own level), and store a new full-height block one level above
it — with no validation and no thin-base handling. -/
def stackVertically (st : SysState) (ref : BlockData) : SysState :=
  let highestLevel := st.blocks.foldl
    (fun acc bd =>
      if decide (bd.posX = ref.posX) && decide (bd.posZ = ref.posZ) then max acc bd.yLevel
      else acc)
    ref.yLevel
  let newLevel := highestLevel + 1
  let yPosition := calculateYPosition st.blocks ref.posX ref.posZ newLevel blockSize
  let bd : BlockData :=
    { height := blockSize, color := st.selectedColor, posX := ref.posX, posY := yPosition,
      posZ := ref.posZ, yLevel := newLevel, id := ⟨ref.posX, newLevel, ref.posZ⟩ }
  { st with
      blocks := bd :: st.blocks.filter fun b =>
        !decide (b.id = (⟨ref.posX, newLevel, ref.posZ⟩ : Cell)) }

/-- `toggleBlockPhysics()` (`BlockSystem.js` lines 447–456): flip the
flag; if it is now enabled, run the cascade; return the new flag value. -/
def toggleBlockPhysics (st : SysState) : SysState × Bool :=
  let st' := { st with enableBlockPhysics := !st.enableBlockPhysics }
  if st'.enableBlockPhysics then ((removeUnsupportedBlocks st').1, st'.enableBlockPhysics)
  else (st', st'.enableBlockPhysics)

/-- A full-height block record at a cell, as `createBlockAt` would store
it for a non-thin block (the cached `posY` is irrelevant to the support
and cascade logic and set to `0` in test fixtures). -/
def mkBlock (x yLevel z : Int) : BlockData :=
  { height := blockSize, color := "#ffffff", posX := x, posY := 0, posZ := z,
    yLevel := yLevel, id := ⟨x, yLevel, z⟩ }

end Coblocks

namespace Coblocks

/-! ## General list lemmas used by the termination and scan arguments -/

theorem length_filter_le_of_imp {α : Type} (p q : α → Bool)
    (h : ∀ a, q a = true → p a = true) :
    ∀ l : List α, (l.filter q).length ≤ (l.filter p).length := by
  intro l
  induction l with
  | nil => simp
  | cons a l ih =>
    cases hq : q a with
    | false =>
      rw [List.filter_cons_of_neg (by simp [hq])]
      cases hp : p a with
      | false => rw [List.filter_cons_of_neg (by simp [hp])]; exact ih
      | true => rw [List.filter_cons_of_pos hp]; exact Nat.le_succ_of_le ih
    | true =>
      have hp := h a hq
      rw [List.filter_cons_of_pos hq, List.filter_cons_of_pos hp]
      exact Nat.succ_le_succ ih

theorem length_filter_lt_of_imp {α : Type} (p q : α → Bool)
    (h : ∀ a, q a = true → p a = true) (x : α) (l : List α)
    (hx : x ∈ l) (hpx : p x = true) (hqx : q x = false) :
    (l.filter q).length < (l.filter p).length := by
  induction l with
  | nil => cases hx
  | cons a l ih =>
    rcases List.mem_cons.mp hx with rfl | hmem
    · rw [List.filter_cons_of_pos hpx, List.filter_cons_of_neg (by simp [hqx])]
      have hle := length_filter_le_of_imp p q h l
      simp only [List.length_cons]
      omega
    · cases hq : q a with
      | false =>
        rw [List.filter_cons_of_neg (by simp [hq])]
        cases hp : p a with
        | false => rw [List.filter_cons_of_neg (by simp [hp])]; exact ih hmem
        | true =>
          rw [List.filter_cons_of_pos hp]
          have := ih hmem
          simp only [List.length_cons]
          omega
      | true =>
        have hp := h a hq
        rw [List.filter_cons_of_pos hq, List.filter_cons_of_pos hp]
        have := ih hmem
        simp only [List.length_cons]
        omega

theorem length_filter_lt_of_mem_false {α : Type} (p : α → Bool) (x : α) (l : List α)
    (hx : x ∈ l) (hpx : p x = false) : (l.filter p).length < l.length := by
  have := length_filter_lt_of_imp (fun _ => true) p (fun _ _ => rfl) x l hx rfl hpx
  simpa using this

/-! ## Termination of the cascade loop -/

/-- Each pass of the cascade that finds at least one unsupported block
strictly shrinks the occupancy store. -/
theorem cascade_pass_shrinks (st : SysState) (h : findUnsupportedBlocks st ≠ []) :
    (removeBlocksByIds st.blocks (findUnsupportedBlocks st)).length < st.blocks.length := by
  obtain ⟨u, hu⟩ : ∃ u, u ∈ findUnsupportedBlocks st := by
    cases hlist : findUnsupportedBlocks st with
    | nil => exact absurd hlist h
    | cons a l => exact ⟨a, List.mem_cons_self a l⟩
  have humem : u ∈ st.blocks := List.mem_of_mem_filter hu
  apply length_filter_lt_of_mem_false _ u _ humem
  simp only [Bool.not_eq_false', List.any_eq_true]
  exact ⟨u, hu, by simp⟩

/-- With fuel exceeding the store size, the cascade loop reaches a state
in which a scan finds no unsupported block (the loop's exit condition). -/
theorem cascadeGo_reaches_fixpoint :
    ∀ (fuel : Nat) (st : SysState) (n : Nat), st.blocks.length < fuel →
      findUnsupportedBlocks (cascadeGo fuel st n).1 = [] := by
  intro fuel
  induction fuel with
  | zero => intro st n h; omega
  | succ f ih =>
    intro st n h
    rw [cascadeGo]
    cases hlist : findUnsupportedBlocks st with
    | nil => simp [hlist]
    | cons a l =>
      have hne : findUnsupportedBlocks st ≠ [] := by rw [hlist]; simp
      have hshrink := cascade_pass_shrinks st hne
      rw [hlist] at hshrink
      simp only [hlist, List.isEmpty_cons, Bool.false_eq_true, if_false]
      exact ih _ _ (by simpa using by omega)

/-- Any two sufficient fuels give the same cascade result: the unbounded
JS loop terminates, and the fuel in `removeUnsupportedBlocks` is harmless. -/
theorem cascadeGo_fuel_irrelevant :
    ∀ (f₁ f₂ : Nat) (st : SysState) (n : Nat),
      st.blocks.length < f₁ → st.blocks.length < f₂ →
      cascadeGo f₁ st n = cascadeGo f₂ st n := by
  intro f₁
  induction f₁ with
  | zero => intro f₂ st n h _; omega
  | succ a ih =>
    intro f₂ st n h1 h2
    cases f₂ with
    | zero => omega
    | succ b =>
      rw [cascadeGo, cascadeGo]
      cases hlist : findUnsupportedBlocks st with
      | nil => rfl
      | cons u l =>
        have hne : findUnsupportedBlocks st ≠ [] := by rw [hlist]; simp
        have hshrink := cascade_pass_shrinks st hne
        rw [hlist] at hshrink
        simp only [List.isEmpty_cons, Bool.false_eq_true, if_false]
        exact ih b _ _ (by simpa using by omega) (by simpa using by omega)

/-- The cascade only touches the `blocks` field of the state. -/
theorem cascadeGo_preserves_rest :
    ∀ (fuel : Nat) (st : SysState) (n : Nat),
      (cascadeGo fuel st n).1.gridData = st.gridData ∧
      (cascadeGo fuel st n).1.enableBlockPhysics = st.enableBlockPhysics := by
  intro fuel
  induction fuel with
  | zero => intro st n; exact ⟨rfl, rfl⟩
  | succ f ih =>
    intro st n
    rw [cascadeGo]
    cases hlist : findUnsupportedBlocks st with
    | nil => simp
    | cons u l =>
      simp only [List.isEmpty_cons, Bool.false_eq_true, if_false]
      exact ih _ _

end Coblocks

namespace Coblocks

set_option maxRecDepth 8000

/-- **C7**: the cascade removal loop terminates for every finite store
state: each pass that finds at least one unsupported cell strictly shrinks
the store; with fuel `store size + 1` the loop reaches a state whose scan
finds nothing (its exit condition), and giving the loop any more fuel
changes nothing — i.e. the unbounded JS `while` loop always exits after
finitely many passes. -/
theorem cascade_loop_terminates (st : SysState) (n : Nat) :
    (findUnsupportedBlocks st ≠ [] →
      (removeBlocksByIds st.blocks (findUnsupportedBlocks st)).length < st.blocks.length) ∧
    findUnsupportedBlocks (cascadeGo (st.blocks.length + 1) st n).1 = [] ∧
    (∀ extra : Nat,
      cascadeGo (st.blocks.length + 1 + extra) st n = cascadeGo (st.blocks.length + 1) st n) :=
  ⟨cascade_pass_shrinks st,
   cascadeGo_reaches_fixpoint _ st n (by omega),
   fun _ => cascadeGo_fuel_irrelevant _ _ st n (by omega) (by omega)⟩

/-- A two-block floating column: the cascade needs two passes to clear it. -/
def stFloat2 : SysState :=
  { blocks := [mkBlock 0 1 0, mkBlock 0 2 0], gridData := [(0, 0)],
    enableBlockPhysics := true, selectedColor := "#ffffff" }

/-- Witness for C7: at a concrete two-block floating column the first pass
finds unsupported blocks, the pass strictly shrinks the store, and the
loop reaches its exit condition. -/
theorem cascade_loop_terminates_witness :
    findUnsupportedBlocks stFloat2 ≠ [] ∧
    (removeBlocksByIds stFloat2.blocks (findUnsupportedBlocks stFloat2)).length <
      stFloat2.blocks.length ∧
    findUnsupportedBlocks (cascadeGo (stFloat2.blocks.length + 1) stFloat2 0).1 = [] :=
  ⟨by decide, (cascade_loop_terminates stFloat2 0).1 (by decide),
    (cascade_loop_terminates stFloat2 0).2.1⟩

/-- **C2 (amended)**: for the uncapped cascade (`BlockSystem.js`,
`gridGenerator.js`) with physics enabled, a second immediate call to
`removeUnsupportedBlocks` removes nothing and returns 0, for every store
state. (The `blockBuilder.js` variant's fixed cap of 100 removals breaks
this — see `capped_cascade_second_call_nonzero`.) -/
theorem collapse_fixed_point (st : SysState) (h : st.enableBlockPhysics = true) :
    removeUnsupportedBlocks (removeUnsupportedBlocks st).1 =
      ((removeUnsupportedBlocks st).1, some 0) := by
  have hfix := cascadeGo_reaches_fixpoint (st.blocks.length + 1) st 0 (by omega)
  have hpres := cascadeGo_preserves_rest (st.blocks.length + 1) st 0
  have h1 : removeUnsupportedBlocks st =
      ((cascadeGo (st.blocks.length + 1) st 0).1,
        some (cascadeGo (st.blocks.length + 1) st 0).2) := by
    rw [removeUnsupportedBlocks, if_neg (by rw [h]; simp)]
  set st₁ := (cascadeGo (st.blocks.length + 1) st 0).1 with hst₁def
  have h₁phys : st₁.enableBlockPhysics = true := by rw [hst₁def, hpres.2]; exact h
  have h2 : removeUnsupportedBlocks st₁ = (st₁, some 0) := by
    rw [removeUnsupportedBlocks, if_neg (by rw [h₁phys]; simp)]
    have hstep : cascadeGo (st₁.blocks.length + 1) st₁ 0 = (st₁, 0) := by
      rw [cascadeGo, hfix]
      rfl
    rw [hstep]
  rw [h1]
  exact h2

/-- A single floating block with physics enabled. -/
def stW2 : SysState :=
  { blocks := [mkBlock 0 1 0], gridData := [], enableBlockPhysics := true,
    selectedColor := "#ffffff" }

/-- Witness for the amended C2 at a concrete store. -/
theorem collapse_fixed_point_witness :
    stW2.enableBlockPhysics = true ∧
    removeUnsupportedBlocks (removeUnsupportedBlocks stW2).1 =
      ((removeUnsupportedBlocks stW2).1, some 0) :=
  ⟨rfl, collapse_fixed_point stW2 rfl⟩

/-- 99 isolated floating blocks at level 1 plus one floating two-block
tower: the first capped pass removes 100 blocks and the cap fires, leaving
the tower's top block unsupported. -/
def capBlocks : List BlockData :=
  ((List.range 99).map fun i => mkBlock (2 * (i : Int)) 1 0) ++
    [mkBlock 198 1 0, mkBlock 198 2 0]

/-- State exercising the `blockBuilder.js` removal cap. -/
def stCap : SysState :=
  { blocks := capBlocks, gridData := [], enableBlockPhysics := true,
    selectedColor := "#ffffff" }

/-- **C2 counterexample**: with the `blockBuilder.js` variant
(`removedCount < 100` in the loop condition), the first call on `stCap`
stops at 100 removals with an unsupported block still stored, and the
second immediate call removes it and returns 1, not 0. -/
theorem capped_cascade_second_call_nonzero :
    (removeUnsupportedBlocksCapped stCap).2 = some 100 ∧
    (removeUnsupportedBlocksCapped (removeUnsupportedBlocksCapped stCap).1).2 = some 1 := by
  decide

/-- A single block on a grounded ground-level cell, nothing else stored. -/
def stC1 : SysState :=
  { blocks := [mkBlock 0 0 0], gridData := [(0, 0)], enableBlockPhysics := true,
    selectedColor := "#ffffff" }

/-- **C1** (divergence demonstration): on a store holding exactly one
block, at ground level on a grounded cell, with no block below and no
occupied neighbor, `validateBlockPlacement` calls the cell supported (the
ground rule), but the cascade path — `findUnsupportedBlocks`, which calls
`hasSupport` directly and thereby skips the ground rule — collects the
block, and `removeUnsupportedBlocks` deletes it and reports one removal. -/
theorem grounded_ground_block_collected_by_cascade :
    isGroundLevel stC1 0 0 = true ∧
    hasBlockId stC1 ⟨0, 0, 0⟩ = true ∧
    validateBlockPlacement stC1 0 0 0 = true ∧
    hasSupport stC1 0 0 0 = false ∧
    findUnsupportedBlocks stC1 = [mkBlock 0 0 0] ∧
    removeUnsupportedBlocks stC1 = ({ stC1 with blocks := [] }, some 1) := by
  decide

end Coblocks

namespace Coblocks

/-- Characterization of the upward scan: with enough fuel, `scanUpGo`
returns a level at or above `t` that is unoccupied, and every level
between `t` and the result is occupied. -/
theorem scanUpGo_spec (st : SysState) (x z : Int) :
    ∀ (fuel : Nat) (t : Int),
      (st.blocks.filter fun bd =>
        decide (bd.id.x = x) && decide (bd.id.z = z) && decide (t ≤ bd.id.y)).length < fuel →
      t ≤ scanUpGo st x z fuel t ∧
      hasBlockId st ⟨x, scanUpGo st x z fuel t, z⟩ = false ∧
      ∀ l : Int, t ≤ l → l < scanUpGo st x z fuel t → hasBlockId st ⟨x, l, z⟩ = true := by
  intro fuel
  induction fuel with
  | zero => intro t h; omega
  | succ f ih =>
    intro t h
    cases hb : hasBlockId st ⟨x, t, z⟩ with
    | false =>
      rw [scanUpGo, if_neg (by simp [hb])]
      exact ⟨le_refl t, hb, fun l hl1 hl2 => absurd (lt_of_le_of_lt hl1 hl2) (lt_irrefl t)⟩
    | true =>
      obtain ⟨bd, hbdmem, hbdid⟩ : ∃ bd, bd ∈ st.blocks ∧ bd.id = (⟨x, t, z⟩ : Cell) := by
        simpa [hasBlockId, List.any_eq_true] using hb
      have hstrict :
          (st.blocks.filter fun bd =>
            decide (bd.id.x = x) && decide (bd.id.z = z) && decide (t + 1 ≤ bd.id.y)).length <
          (st.blocks.filter fun bd =>
            decide (bd.id.x = x) && decide (bd.id.z = z) && decide (t ≤ bd.id.y)).length := by
        apply length_filter_lt_of_imp _ _ ?_ bd st.blocks hbdmem ?_ ?_
        · intro a ha
          simp only [Bool.and_eq_true, decide_eq_true_eq] at ha ⊢
          exact ⟨⟨ha.1.1, ha.1.2⟩, by omega⟩
        · simp [hbdid]
        · simp [hbdid]
      have hrec := ih (t + 1) (by omega)
      rw [scanUpGo, if_pos hb]
      refine ⟨le_trans (by omega) hrec.1, hrec.2.1, ?_⟩
      intro l hl1 hl2
      by_cases heq : l = t
      · subst heq; exact hb
      · exact hrec.2.2 l (by omega) hl2

/-- `scanUp` returns the first unoccupied level at or above `start` in the
column: the fuel chosen in its definition is always sufficient. -/
theorem scanUp_spec (st : SysState) (x z start : Int) :
    start ≤ scanUp st x z start ∧
    hasBlockId st ⟨x, scanUp st x z start, z⟩ = false ∧
    ∀ l : Int, start ≤ l → l < scanUp st x z start → hasBlockId st ⟨x, l, z⟩ = true := by
  have himp : ∀ a : BlockData,
      (decide (a.id.x = x) && decide (a.id.z = z) && decide (start ≤ a.id.y)) = true →
      (decide (a.id.x = x) && decide (a.id.z = z)) = true := by
    intro a ha
    simp only [Bool.and_eq_true, decide_eq_true_eq] at ha ⊢
    exact ⟨ha.1.1, ha.1.2⟩
  have hmono := length_filter_le_of_imp _ _ himp st.blocks
  rw [scanUp]
  apply scanUpGo_spec
  omega

/-- **C3 (amended)**: `placeAboveBlock` targets the first unoccupied level
scanning upward from the reference's `yLevel + 1` in the same column, for
every store state. (But not *every* stack-above placement does:
`stackVertically` — and likewise `addOrStackBlock` — targets the column's
highest occupied level + 1; see `stackVertically_skips_gap`.) -/
theorem placeAbove_targets_first_free (st : SysState) (ref : BlockData) (skip : Bool) :
    placeAboveBlock st ref skip =
      createBlockAt st ref.posX ref.posZ (scanUp st ref.posX ref.posZ (ref.yLevel + 1)) skip ∧
    ref.yLevel + 1 ≤ scanUp st ref.posX ref.posZ (ref.yLevel + 1) ∧
    hasBlockId st ⟨ref.posX, scanUp st ref.posX ref.posZ (ref.yLevel + 1), ref.posZ⟩ = false ∧
    ∀ l : Int, ref.yLevel + 1 ≤ l → l < scanUp st ref.posX ref.posZ (ref.yLevel + 1) →
      hasBlockId st ⟨ref.posX, l, ref.posZ⟩ = true :=
  ⟨rfl, (scanUp_spec st ref.posX ref.posZ (ref.yLevel + 1)).1,
    (scanUp_spec st ref.posX ref.posZ (ref.yLevel + 1)).2.1,
    (scanUp_spec st ref.posX ref.posZ (ref.yLevel + 1)).2.2⟩

/-- Column `(0,0)` occupied at levels 0, 1 and 3: the first free level
above the level-0 reference is 2, below a gap. -/
def stGapW : SysState :=
  { blocks := [mkBlock 0 0 0, mkBlock 0 1 0, mkBlock 0 3 0], gridData := [(0, 0)],
    enableBlockPhysics := true, selectedColor := "#ffffff" }

/-- Reference block for the C3 witness. -/
def refGapW : BlockData := mkBlock 0 0 0

/-- Witness for the amended C3: applying the characterization at a
concrete gapped column shows the level crossed by the scan is occupied. -/
theorem placeAbove_targets_first_free_witness :
    hasBlockId stGapW ⟨0, 1, 0⟩ = true :=
  (placeAbove_targets_first_free stGapW refGapW false).2.2.2 1 (by decide) (by decide)

/-- Column `(0,0)` occupied at levels 0 and 2 only — a gap at level 1. -/
def stGapC : SysState :=
  { blocks := [mkBlock 0 0 0, mkBlock 0 2 0], gridData := [(0, 0)],
    enableBlockPhysics := true, selectedColor := "#ffffff" }

/-- **C3 counterexample**: on a column occupied at levels 0 and 2, level 1
is unoccupied, yet the stack-above variant `stackVertically` (invoked on
the level-0 block) stores the new block at level 3 — the column's highest
occupied level + 1 — and leaves the gap at level 1 unfilled. -/
theorem stackVertically_skips_gap :
    hasBlockId stGapC ⟨0, 1, 0⟩ = false ∧
    hasBlockId (stackVertically stGapC (mkBlock 0 0 0)) ⟨0, 3, 0⟩ = true ∧
    hasBlockId (stackVertically stGapC (mkBlock 0 0 0)) ⟨0, 1, 0⟩ = false := by
  decide

end Coblocks

namespace Coblocks

/-- A direct source of support for a cell: it is a grounded ground-level
cell, or the cell directly below it is occupied (the two terminal cases of
`hasIndirectSupport`). -/
def supportSource (st : SysState) (c : Cell) : Bool :=
  (decide (c.y = 0) && isGroundLevel st c.x c.z) || hasBlockId st ⟨c.x, c.y - 1, c.z⟩

/-- One step of the support search: `b` is one of `a`'s four horizontal
neighbors and is occupied. -/
def SupportAdj (st : SysState) (a b : Cell) : Prop :=
  b ∈ adjacentPositions a.x a.y a.z ∧ hasBlockId st b = true

/-- Reachability through occupied horizontal neighbors — the connected
component explored by the recursive support search. -/
def SupportReach (st : SysState) : Cell → Cell → Prop :=
  Relation.ReflTransGen (SupportAdj st)

/-- Soundness of the recursive search: whenever `hisGo` answers `true`,
some cell reachable from the queried cell through occupied horizontal
neighbors is a direct source of support. -/
theorem hisGo_true_reaches_source (st : SysState) :
    ∀ (fuel : Nat) (x yLevel z : Int) (visited : List Cell),
      hisGo st fuel x yLevel z visited = true →
      ∃ c : Cell, SupportReach st ⟨x, yLevel, z⟩ c ∧ supportSource st c = true := by
  intro fuel
  induction fuel with
  | zero => intro x y z visited h; exact absurd h (by simp [hisGo])
  | succ f ih =>
    intro x y z visited h
    rw [hisGo] at h
    split at h
    · exact absurd h (by simp)
    · split at h
      · next hg =>
        exact ⟨⟨x, y, z⟩, Relation.ReflTransGen.refl, by
          simp only [supportSource, Bool.or_eq_true]
          exact Or.inl hg⟩
      · split at h
        · next hbelow =>
          exact ⟨⟨x, y, z⟩, Relation.ReflTransGen.refl, by
            simp only [supportSource, Bool.or_eq_true]
            exact Or.inr hbelow⟩
        · next hbelow =>
          rw [List.any_eq_true] at h
          obtain ⟨pos, hpos, hcond⟩ := h
          simp only [Bool.and_eq_true] at hcond
          obtain ⟨⟨hocc, _⟩, hrec⟩ := hcond
          obtain ⟨c, hreach, hsrc⟩ := ih pos.x pos.y pos.z _ hrec
          exact ⟨c, Relation.ReflTransGen.head ⟨hpos, hocc⟩ hreach, hsrc⟩

/-- If no cell reachable from `A` through occupied horizontal neighbors is
a direct source of support, then `hasSupport` reports `A` unsupported. -/
theorem hasSupport_eq_false_of_no_source (st : SysState) (A : Cell)
    (hno : ∀ c : Cell, SupportReach st A c → supportSource st c = false) :
    hasSupport st A.x A.y A.z = false := by
  have hsrcA := hno A Relation.ReflTransGen.refl
  simp only [supportSource, Bool.or_eq_false_iff] at hsrcA
  rw [hasSupport, if_neg (by simp [hsrcA.2])]
  cases hb : (adjacentPositions A.x A.y A.z).any fun pos =>
      hasBlockId st pos && hasIndirectSupport st pos.x pos.y pos.z [⟨A.x, A.y, A.z⟩] with
  | false => rfl
  | true =>
    exfalso
    rw [List.any_eq_true] at hb
    obtain ⟨pos, hpos, hcond⟩ := hb
    rw [Bool.and_eq_true] at hcond
    obtain ⟨hocc, hind⟩ := hcond
    rw [hasIndirectSupport] at hind
    obtain ⟨c, hreach, hsrc⟩ := hisGo_true_reaches_source st _ pos.x pos.y pos.z _ hind
    have hAc : SupportReach st A c := Relation.ReflTransGen.head ⟨hpos, hocc⟩ hreach
    rw [hno c hAc] at hsrc
    exact absurd hsrc (by simp)

/-- **C4**: cycle safety of the support search. For two occupied,
horizontally adjacent cells `A` and `B` at the same level `> 0`, if no
cell in their connected component of occupied cells is grounded at ground
level or sits directly above an occupied cell, then `hasSupport` returns
`false` for both — the visited set prevents the two cells from counting
each other as support. -/
theorem floating_bridge_both_unsupported (st : SysState) (A B : Cell)
    (_hA : hasBlockId st A = true) (_hB : hasBlockId st B = true)
    (_hadj : B ∈ adjacentPositions A.x A.y A.z) (_hy : 0 < A.y)
    (hnoA : ∀ c : Cell, SupportReach st A c → supportSource st c = false)
    (hnoB : ∀ c : Cell, SupportReach st B c → supportSource st c = false) :
    hasSupport st A.x A.y A.z = false ∧ hasSupport st B.x B.y B.z = false :=
  ⟨hasSupport_eq_false_of_no_source st A hnoA,
   hasSupport_eq_false_of_no_source st B hnoB⟩

/-- Every cell reachable from `X` through the support relation is `X`
itself or an occupied cell. -/
theorem supportReach_self_or_occupied (st : SysState) (X c : Cell)
    (h : SupportReach st X c) : c = X ∨ hasBlockId st c = true := by
  induction h with
  | refl => exact Or.inl rfl
  | tail _ hstep _ => exact Or.inr hstep.2

/-- A two-cell floating bridge: occupied cells `(0,1,0)` and `(1,1,0)`
only, over a grid containing `(0,0)`. -/
def stBridge : SysState :=
  { blocks := [mkBlock 0 1 0, mkBlock 1 1 0], gridData := [(0, 0)],
    enableBlockPhysics := true, selectedColor := "#ffffff" }

/-- In the bridge state, no occupied cell is a direct source of support. -/
theorem stBridge_no_source :
    ∀ c : Cell, hasBlockId stBridge c = true → supportSource stBridge c = false := by
  intro c h
  have hmem : c = (⟨0, 1, 0⟩ : Cell) ∨ c = (⟨1, 1, 0⟩ : Cell) := by
    simp only [hasBlockId, List.any_eq_true, decide_eq_true_eq] at h
    obtain ⟨bd, hbd, hid⟩ := h
    simp only [stBridge, List.mem_cons, List.not_mem_nil, or_false] at hbd
    rcases hbd with rfl | rfl
    · exact Or.inl hid.symm
    · exact Or.inr hid.symm
  rcases hmem with rfl | rfl <;> decide

/-- Witness for C4: both cells of the concrete floating two-cell bridge
are reported unsupported. -/
theorem floating_bridge_both_unsupported_witness :
    hasSupport stBridge 0 1 0 = false ∧ hasSupport stBridge 1 1 0 = false := by
  have hno : ∀ X : Cell, hasBlockId stBridge X = true →
      ∀ c : Cell, SupportReach stBridge X c → supportSource stBridge c = false := by
    intro X hX c hc
    rcases supportReach_self_or_occupied stBridge X c hc with heq | hocc
    · rw [heq]; exact stBridge_no_source X hX
    · exact stBridge_no_source c hocc
  exact floating_bridge_both_unsupported stBridge ⟨0, 1, 0⟩ ⟨1, 1, 0⟩ (by decide) (by decide)
    (by decide) (by decide) (hno ⟨0, 1, 0⟩ (by decide)) (hno ⟨1, 1, 0⟩ (by decide))

end Coblocks

namespace Coblocks

/-- Empty store over the single-cell grid `{(0,0)}`. -/
def s0 : SysState :=
  { blocks := [], gridData := [(0, 0)], enableBlockPhysics := true,
    selectedColor := "#ffffff" }

/-- `s0` after placing a block at `(0,0,0)`. -/
def s1 : SysState := (createBlockAt s0 0 0 0 false).1

/-- `s1` after placing a block at `(0,1,0)`. -/
def s2 : SysState := (createBlockAt s1 0 0 1 false).1

/-- The thin ground block as stored by the first placement. -/
def bd0 : BlockData :=
  { height := thinBaseHeight, color := "#ffffff", posX := 0,
    posY := landBaseY + thinBaseHeight / 2, posZ := 0, yLevel := 0, id := ⟨0, 0, 0⟩ }

/-- The ground block after inflation (`base.height += needed`). -/
def bd0inflated : BlockData :=
  { bd0 with height := thinBaseHeight + (blockSize - thinBaseHeight) }

/-- The level-1 block as stored by the second placement. -/
def bd1 : BlockData :=
  { height := blockSize, color := "#ffffff", posX := 0,
    posY := landBaseY + (thinBaseHeight + (blockSize - thinBaseHeight)) + blockSize / 2,
    posZ := 0, yLevel := 1, id := ⟨0, 1, 0⟩ }

/-- The first placement stores exactly the thin base block. -/
theorem s1_eq : s1 = { s0 with blocks := [bd0] } := by
  rw [s1, createBlockAt, if_neg (by decide)]
  rfl

/-- The second placement inflates the base in place and stores the level-1
block above it. -/
theorem s2_eq : s2 = { s0 with blocks := [bd1, bd0inflated] } := by
  have hfind : ([bd0] : List BlockData).find? (fun bd => decide (bd.id = (⟨0, 0, 0⟩ : Cell))) =
      some bd0 := rfl
  have hlt : bd0.height < blockSize := by
    norm_num [bd0, thinBaseHeight, blockSize]
  rw [s2, s1_eq, createBlockAt, if_neg (by decide)]
  simp only [hfind]
  rw [if_pos hlt]
  rfl

/-- **C5**: thin-base inflation round-trip. Placing a block at the
grounded empty column `(0,0)` stores it with height `0.22 < 1`; then
placing a block at level 1 of the same column mutates the stored ground
block's height to exactly `blockSize = 1` and gives the level-1 block the
cached world Y position `landBaseY + 1 + 0.5 = 2`. -/
theorem thin_base_inflation_roundtrip :
    (createBlockAt s0 0 0 0 false).2 = true ∧
    (getBlockId s1 ⟨0, 0, 0⟩).map (fun bd => bd.height) = some (22/100 : ℚ) ∧
    (22/100 : ℚ) < blockSize ∧
    (createBlockAt s1 0 0 1 false).2 = true ∧
    (getBlockId s2 ⟨0, 0, 0⟩).map (fun bd => bd.height) = some blockSize ∧
    (getBlockId s2 ⟨0, 1, 0⟩).map (fun bd => bd.posY) = some (landBaseY + 1 + 1/2) := by
  refine ⟨rfl, ?_, by norm_num [blockSize], rfl, ?_, ?_⟩
  · rw [s1_eq]
    simp only [getBlockId]
    rw [List.find?_cons_of_pos _ (by decide)]
    simp only [Option.map_some']
    norm_num [bd0, thinBaseHeight]
  · rw [s2_eq]
    simp only [getBlockId]
    rw [List.find?_cons_of_neg _ (by decide), List.find?_cons_of_pos _ (by decide)]
    simp only [Option.map_some']
    norm_num [bd0inflated, bd0, thinBaseHeight, blockSize]
  · rw [s2_eq]
    simp only [getBlockId]
    rw [List.find?_cons_of_pos _ (by decide)]
    simp only [Option.map_some']
    norm_num [bd1, thinBaseHeight, blockSize, landBaseY]

/-- **C6**: placement rejection is atomic. If physics enforcement is
enabled, validation is not skipped, and the target cell fails validation,
then `createBlockAt` returns `false` and the whole state — in particular
the occupancy store — is exactly the input state: nothing is inserted,
removed or mutated. -/
theorem placement_rejection_atomic (st : SysState) (x z yLevel : Int)
    (hphys : st.enableBlockPhysics = true)
    (hval : validateBlockPlacement st x yLevel z = false) :
    createBlockAt st x z yLevel false = (st, false) := by
  rw [createBlockAt, if_pos]
  simp [hphys, hval]

/-- Empty store over an empty grid membership set. -/
def stEmpty : SysState :=
  { blocks := [], gridData := [], enableBlockPhysics := true,
    selectedColor := "#ffffff" }

/-- Witness for C6: with an empty grid membership set and an empty store,
placing at `(5,0,5)` fails validation, is rejected, and leaves the store
empty. -/
theorem placement_rejection_atomic_witness :
    stEmpty.enableBlockPhysics = true ∧
    validateBlockPlacement stEmpty 5 0 5 = false ∧
    createBlockAt stEmpty 5 5 0 false = (stEmpty, false) :=
  ⟨rfl, by decide, placement_rejection_atomic stEmpty 5 5 0 rfl (by decide)⟩

/-- **C8**: the recursive support search is total and bounded. Whenever
the visited set's size exceeds the fixed bound of 20, `hasIndirectSupport`
returns `false` — the query is treated as unsupported rather than
recursing further (and, being a total function, it never crashes). -/
theorem support_search_depth_capped (st : SysState) (x yLevel z : Int)
    (visited : List Cell) (h : 20 < visited.length) :
    hasIndirectSupport st x yLevel z visited = false := by
  rw [hasIndirectSupport]
  have h0 : 21 - visited.length = 0 := by omega
  rw [h0]
  rfl

/-- A visited set of 21 distinct cells. -/
def visited21 : List Cell := (List.range 21).map fun i => ⟨(i : Int), 0, 0⟩

/-- Witness for C8 at a concrete oversized visited set. -/
theorem support_search_depth_capped_witness :
    20 < visited21.length ∧ hasIndirectSupport stEmpty 3 2 1 visited21 = false :=
  ⟨by decide, support_search_depth_capped stEmpty 3 2 1 visited21 (by decide)⟩

/-- If every level from `t` down to 0 is occupied, the downward scan
(called with its exact fuel `(t+1).toNat`) runs below zero and reports no
target. -/
theorem scanDownGo_none (st : SysState) (x z : Int) :
    ∀ (n : Nat) (t : Int), n = (t + 1).toNat →
      (∀ l : Int, 0 ≤ l → l ≤ t → hasBlockId st ⟨x, l, z⟩ = true) →
      scanDownGo st x z n t = none := by
  intro n
  induction n with
  | zero => intro t _ _; rfl
  | succ m ih =>
    intro t hn hall
    have ht : 0 ≤ t := by omega
    rw [scanDownGo, if_neg (by omega), if_pos (hall t ht (le_refl t))]
    exact ih (t - 1) (by omega) fun l h0 hl => hall l h0 (by omega)

/-- **C9**: place-below is a silent no-op at the ground boundary. For
every store state and reference block, if every level from the reference's
`yLevel - 1` down to 0 is occupied, `placeBelowBlock` returns the state
unchanged: nothing is inserted, removed or mutated (and, being a total
function, nothing is thrown). -/
theorem placeBelow_full_column_noop (st : SysState) (ref : BlockData) (skip : Bool)
    (hall : ∀ l : Int, 0 ≤ l → l < ref.yLevel → hasBlockId st ⟨ref.posX, l, ref.posZ⟩ = true) :
    placeBelowBlock st ref skip = st := by
  rw [placeBelowBlock]
  have hnone : scanDown st ref.posX ref.posZ (ref.yLevel - 1) = none := by
    rw [scanDown]
    exact scanDownGo_none st ref.posX ref.posZ _ (ref.yLevel - 1) rfl
      fun l h0 hl => hall l h0 (by omega)
  rw [hnone]

/-- Column `(0,0)` fully occupied at levels 0, 1, 2. -/
def stTower : SysState :=
  { blocks := [mkBlock 0 0 0, mkBlock 0 1 0, mkBlock 0 2 0], gridData := [(0, 0)],
    enableBlockPhysics := true, selectedColor := "#ffffff" }

/-- Witness for C9: place-below from the level-2 block of a full column is
a no-op. -/
theorem placeBelow_full_column_noop_witness :
    placeBelowBlock stTower (mkBlock 0 2 0) false = stTower :=
  placeBelow_full_column_noop stTower (mkBlock 0 2 0) false (by
    intro l h0 hl
    have hl2 : l < 2 := hl
    have : l = 0 ∨ l = 1 := by omega
    rcases this with rfl | rfl <;> decide)

/-- **C10**: when physics enforcement is disabled, the cascade removal
operation returns immediately: the state (in particular the store) is
unchanged and the yielded count is `none` (JS `undefined`), not `0`; and
toggling physics back on runs the cascade on the re-enabled state, which
is when accumulated unsupported blocks are collapsed. -/
theorem physics_disabled_cascade_noop (st : SysState)
    (h : st.enableBlockPhysics = false) :
    removeUnsupportedBlocks st = (st, none) ∧
    toggleBlockPhysics st =
      ((removeUnsupportedBlocks { st with enableBlockPhysics := true }).1, true) := by
  constructor
  · rw [removeUnsupportedBlocks, if_pos (by rw [h]; rfl)]
  · rw [toggleBlockPhysics]
    simp only [h, Bool.not_false]
    rfl

/-- A floating block stored while physics is disabled. -/
def stDisabled : SysState :=
  { blocks := [mkBlock 0 1 0], gridData := [], enableBlockPhysics := false,
    selectedColor := "#ffffff" }

/-- Witness for C10: with physics disabled the floating block survives the
cascade call and the count is `none`; toggling physics back on removes it. -/
theorem physics_disabled_cascade_noop_witness :
    stDisabled.enableBlockPhysics = false ∧
    removeUnsupportedBlocks stDisabled = (stDisabled, none) ∧
    (toggleBlockPhysics stDisabled).1.blocks = [] := by
  have h := physics_disabled_cascade_noop stDisabled rfl
  refine ⟨rfl, h.1, ?_⟩
  rw [h.2]
  decide

end Coblocks
